import Mathlib

/-!
Verification of the `naba` CLI's request/response pipeline and output writer,
shallowly embedded from `internal/gemini/prompt.go`, `internal/gemini/types.go`
and `internal/output/writer.go`.  Machine strings are Lean `String`s, raw bytes
are `List Nat` (each < 256), the filesystem is the list of existing paths, and
JSON (de)serialization of HTTP bodies is abstracted by its parse outcome.
-/

namespace Naba

/-! ### Generic string helpers -/

/-- Boolean list-prefix test, used to define substring containment. -/
def isPrefixList : List Char → List Char → Bool
  | [], _ => true
  | _ :: _, [] => false
  | a :: as, b :: bs => decide (a = b) && isPrefixList as bs

/-- Does the second list contain the first as a contiguous sublist? -/
def containsSub (pat : List Char) : List Char → Bool
  | [] => isPrefixList pat []
  | c :: rest => isPrefixList pat (c :: rest) || containsSub pat rest

/-- `strContains s pat` holds when `pat` occurs contiguously inside `s`
(model of Go's `strings.Contains`). -/
def strContains (s pat : String) : Bool :=
  containsSub pat.data s.data

/-- Model of Go's `strings.TrimSuffix`: drop `suffix` from the end of `s`
when it is a suffix, otherwise return `s` unchanged. -/
def trimSuffix (s suffix : String) : String :=
  if suffix.data.reverse.isPrefixOf s.data.reverse then
    ⟨s.data.take (s.data.length - suffix.data.length)⟩
  else s

/-- ASCII model of Go's `strings.ToLower` (`Char.toLower` lowercases the
ASCII range, which covers every extension the code compares against). -/
def stringToLower (s : String) : String :=
  ⟨s.data.map Char.toLower⟩

/-! ### Decimal rendering of naturals (Go's `%d` for non-negative ints)

`natToCharsAux` mirrors core `Nat.toDigitsCore` at base 10 but recurses
structurally on fuel so that the kernel can evaluate it. -/

def natToCharsAux : Nat → Nat → List Char → List Char
  | 0, _, acc => acc
  | fuel + 1, n, acc =>
    let acc' := Nat.digitChar (n % 10) :: acc
    if n / 10 = 0 then acc' else natToCharsAux fuel (n / 10) acc'

/-- The decimal digit characters of `n`, most significant first. -/
def natToChars (n : Nat) : List Char :=
  natToCharsAux (n + 1) n []

/-- Decimal rendering of a natural number, as produced by Go's `%d`. -/
def natToString (n : Nat) : String :=
  ⟨natToChars n⟩

/-! ### Path helpers (Unix rules, from Go `path/filepath`) -/

/-- Core of `filepath.Ext`: the input is the reversed path, the accumulator
the (forward) characters already passed; stop at a path separator. -/
def goExtAux : List Char → List Char → List Char
  | [], _ => []
  | c :: rest, acc =>
    if c = '/' then []
    else if c = '.' then '.' :: acc
    else goExtAux rest (c :: acc)

/-- Model of Go's `filepath.Ext`: the suffix starting at the final dot of the
final path element, or empty when there is none. -/
def filepathExt (p : String) : String :=
  ⟨goExtAux p.data.reverse []⟩

/-- Split a character list on `'/'` (empty fields kept). -/
def splitSlashAux : List Char → List Char → List (List Char)
  | [], cur => [cur.reverse]
  | c :: rest, cur =>
    if c = '/' then cur.reverse :: splitSlashAux rest []
    else splitSlashAux rest (c :: cur)

/-- Lexical path-element processing used by `goClean`: the second argument is
the reversed stack of kept elements, the flag says whether the path is
rooted.  `".."` pops a kept element, is dropped at the root of a rooted
path, and is kept for a relative path. -/
def cleanFold : List (List Char) → List (List Char) → Bool → List (List Char)
  | [], st, _ => st
  | e :: rest, st, rooted =>
    if e = [] ∨ e = ['.'] then cleanFold rest st rooted
    else if e = ['.', '.'] then
      match st with
      | [] => if rooted then cleanFold rest [] rooted else cleanFold rest [['.', '.']] rooted
      | q :: qs =>
        if q = ['.', '.'] then cleanFold rest (e :: st) rooted else cleanFold rest qs rooted
    else cleanFold rest (e :: st) rooted

/-- Model of Go's `filepath.Clean` on Unix: collapse separators, drop `"."`
elements, resolve `".."`, and return `"."` for an empty relative result. -/
def goClean (p : String) : String :=
  let rooted : Bool := match p.data with | '/' :: _ => true | _ => false
  let elems := (cleanFold (splitSlashAux p.data []) [] rooted).reverse
  let body := List.intercalate ['/'] elems
  if rooted then ⟨'/' :: body⟩
  else if elems = [] then "." else ⟨body⟩

/-- Model of Go's `filepath.Abs` (Unix): clean an already-rooted path, else
join it onto the working directory and clean. -/
def filepathAbs (cwd p : String) : String :=
  match p.data with
  | '/' :: _ => goClean p
  | _ => goClean (cwd ++ "/" ++ p)

/-! ### Base64 (model of Go `encoding/base64` `StdEncoding`) -/

/-- The sextet value of a standard-alphabet base64 character. -/
def base64Index (c : Char) : Option Nat :=
  if 'A' ≤ c ∧ c ≤ 'Z' then some (c.toNat - 'A'.toNat)
  else if 'a' ≤ c ∧ c ≤ 'z' then some (c.toNat - 'a'.toNat + 26)
  else if '0' ≤ c ∧ c ≤ '9' then some (c.toNat - '0'.toNat + 52)
  else if c = '+' then some 62
  else if c = '/' then some 63
  else none

/-- The standard-alphabet character for a sextet value. -/
def base64Char (n : Nat) : Char :=
  if n < 26 then Char.ofNat ('A'.toNat + n)
  else if n < 52 then Char.ofNat ('a'.toNat + (n - 26))
  else if n < 62 then Char.ofNat ('0'.toNat + (n - 52))
  else if n = 62 then '+'
  else '/'

/-- Strict quad-by-quad decoding of padded standard base64: the input length
must be a multiple of four, `'='` padding may appear only at the end of the
final quad, and every data character must be in the alphabet. -/
def decodeBase64Chars : List Char → Option (List Nat)
  | [] => some []
  | a :: b :: c :: d :: rest =>
    match base64Index a, base64Index b with
    | some x, some y =>
      if c = '=' then
        if d = '=' ∧ rest = [] then some [x * 4 + y / 16] else none
      else
        match base64Index c with
        | some z =>
          if d = '=' then
            if rest = [] then some [x * 4 + y / 16, y % 16 * 16 + z / 4] else none
          else
            match base64Index d with
            | some w =>
              match decodeBase64Chars rest with
              | some bs => some ((x * 4 + y / 16) :: (y % 16 * 16 + z / 4) :: (z % 4 * 64 + w) :: bs)
              | none => none
            | none => none
        | none => none
    | _, _ => none
  | _ => none

/-- Model of `base64.StdEncoding.DecodeString`: Go's decoder skips CR and LF
anywhere in the input, then decodes strictly. -/
def decodeBase64 (s : String) : Option (List Nat) :=
  decodeBase64Chars (s.data.filter fun c => decide (c ≠ '\r') && decide (c ≠ '\n'))

/-- Model of `base64.StdEncoding.EncodeToString` on a byte list. -/
def encodeBase64Bytes : List Nat → List Char
  | [] => []
  | [x] => [base64Char (x / 4), base64Char (x % 4 * 16), '=', '=']
  | [x, y] => [base64Char (x / 4), base64Char (x % 4 * 16 + y / 16), base64Char (y % 16 * 4), '=']
  | x :: y :: z :: rest =>
    base64Char (x / 4) :: base64Char (x % 4 * 16 + y / 16) ::
      base64Char (y % 16 * 4 + z / 64) :: base64Char (z % 64) :: encodeBase64Bytes rest

/-! ### Data model (from `internal/gemini/types.go`) -/

/-- A base64-encoded binary payload with its MIME type. -/
structure InlineData where
  mimeType : String
  data : String
deriving DecidableEq

/-- One part of a conversational turn: text, or an inline binary payload. -/
structure Part where
  text : String
  inlineData : Option InlineData
deriving DecidableEq

/-- One conversational turn: a role plus an ordered sequence of parts. -/
structure Content where
  role : String
  parts : List Part
deriving DecidableEq

/-- A safety rating attached to a candidate or to prompt feedback. -/
structure SafetyRating where
  category : String
  probability : String
deriving DecidableEq

/-- One alternative generated response. -/
structure Candidate where
  content : Option Content
  finishReason : String
  safetyRatings : List SafetyRating
deriving DecidableEq

/-- Top-level prompt feedback carrying a policy block reason. -/
structure PromptFeedback where
  blockReason : String
  safetyRatings : List SafetyRating
deriving DecidableEq

/-- A parsed 200-response body. -/
structure GenerateResponse where
  candidates : List Candidate
  promptFeedback : Option PromptFeedback
deriving DecidableEq

/-- Generation configuration sent with every request. -/
structure GenerationConfig where
  responseModalities : List String
deriving DecidableEq

/-- The request body for `generateContent`. -/
structure GenerateRequest where
  contents : List Content
  generationConfig : GenerationConfig
deriving DecidableEq

/-- A decoded image extracted from the response: raw bytes plus MIME type. -/
structure ImageResult where
  data : List Nat
  mimeType : String
deriving DecidableEq

/-- A classified API failure: HTTP status (0 for non-HTTP failures), message,
and process exit code. -/
structure APIError where
  statusCode : Nat
  message : String
  exitCode : Nat
deriving DecidableEq

/-- A Go `error` value as produced by the client: either a typed `*APIError`
or a plain `fmt.Errorf` error carrying only a message. -/
inductive GoErr where
  | apiError (e : APIError)
  | plain (msg : String)
deriving DecidableEq

/-- The message of a Go error (`Error()`). -/
def GoErr.message : GoErr → String
  | .apiError e => e.message
  | .plain m => m

/-- Exit codes fixed in `prompt.go`. -/
def ExitGeneral : Nat := 1

/-- Usage-error exit code. -/
def ExitUsage : Nat := 2

/-- Authentication-error exit code. -/
def ExitAuth : Nat := 3

/-- Rate-limit exit code. -/
def ExitRateLimit : Nat := 4

/-- API-error exit code. -/
def ExitAPI : Nat := 5

/-- File-I/O exit code. -/
def ExitFileIO : Nat := 10

/-- Model of `handleAPIError` from the CLI layer: a typed `*APIError` keeps
its own exit code and message; any other error is classified as a general
failure with its message passed through. -/
def handleAPIError : GoErr → Nat × String
  | .apiError e => (e.exitCode, e.message)
  | .plain m => (ExitGeneral, m)

/-! ### Gemini client (from `internal/gemini/prompt.go`) -/

/-- `detectMIMEType` from `prompt.go`: map the lower-cased file extension to
a MIME type, defaulting to `image/png`. -/
def detectMIMEType (path : String) : String :=
  let e := stringToLower (filepathExt path)
  if e = ".png" then "image/png"
  else if e = ".jpg" ∨ e = ".jpeg" then "image/jpeg"
  else if e = ".gif" then "image/gif"
  else if e = ".webp" then "image/webp"
  else if e = ".bmp" then "image/bmp"
  else "image/png"

/-- `readImageFile` from `prompt.go`.  The `os.ReadFile` outcome is an input:
`none` models a read failure, `some bs` the file's bytes.  On success it
returns the base64-encoded contents and the detected MIME type. -/
def readImageFile (path : String) (fileData : Option (List Nat)) :
    Except GoErr (String × String) :=
  match fileData with
  | none =>
    .error (.apiError
      { statusCode := 0
        message := "read image file " ++ path ++ ": file error"
        exitCode := ExitFileIO })
  | some bs => .ok (⟨encodeBase64Bytes bs⟩, detectMIMEType path)

/-- The request literal built by `Generate`: one user turn holding a single
text part, requesting both TEXT and IMAGE modalities. -/
def generateRequest (prompt : String) : GenerateRequest :=
  { contents := [{ role := "user", parts := [{ text := prompt, inlineData := none }] }]
    generationConfig := { responseModalities := ["TEXT", "IMAGE"] } }

/-- The request built by `GenerateWithImage`: read the input image, then one
user turn holding the text part followed by one inline-data part. -/
def generateWithImageRequest (prompt path : String) (fileData : Option (List Nat)) :
    Except GoErr GenerateRequest :=
  match readImageFile path fileData with
  | .error e => .error e
  | .ok (imageData, mimeType) =>
    .ok
      { contents :=
          [{ role := "user"
             parts :=
               [{ text := prompt, inlineData := none },
                { text := "", inlineData := some { mimeType := mimeType, data := imageData } }] }]
        generationConfig := { responseModalities := ["TEXT", "IMAGE"] } }

/-- The message carried by Go's `base64.CorruptInputError` (its byte offset
is not modelled). -/
def base64CorruptMessage : String := "illegal base64 data"

/-- The wrapped error produced when an inline payload fails to decode. -/
def decodeFailMsg : String := "decode image data: " ++ base64CorruptMessage

/-- The inner loop of `extractImages` over one candidate's parts: parts
without inline data are skipped, each payload is base64-decoded, and a decode
failure aborts with the wrapped error. -/
def extractFromParts : List Part → Except GoErr (List ImageResult)
  | [] => .ok []
  | p :: rest =>
    match p.inlineData with
    | none => extractFromParts rest
    | some idata =>
      match decodeBase64 idata.data with
      | none => .error (.plain decodeFailMsg)
      | some bs =>
        match extractFromParts rest with
        | .error e => .error e
        | .ok imgs => .ok ({ data := bs, mimeType := idata.mimeType } :: imgs)

/-- The outer loop of `extractImages` over candidates: candidates without
content are skipped; images accumulate in candidate order. -/
def extractLoop : List Candidate → Except GoErr (List ImageResult)
  | [] => .ok []
  | cand :: rest =>
    match cand.content with
    | none => extractLoop rest
    | some content =>
      match extractFromParts content.parts with
      | .error e => .error e
      | .ok imgs =>
        match extractLoop rest with
        | .error e => .error e
        | .ok more => .ok (imgs ++ more)

/-- `extractImages` from `prompt.go`: collect every inline-data part across
all candidates; an empty collection is an API failure. -/
def extractImages (resp : GenerateResponse) : Except GoErr (List ImageResult) :=
  match extractLoop resp.candidates with
  | .error e => .error e
  | .ok images =>
    if images.length = 0 then
      .error (.apiError
        { statusCode := 0, message := "no images in response", exitCode := ExitAPI })
    else .ok images

/-- `parseAPIError` from `prompt.go`.  `envMsg` is the `error.message` field
of the best-effort envelope parse of the body (empty when the envelope is
malformed or the field missing). -/
def parseAPIError (statusCode : Nat) (envMsg : String) : APIError :=
  let msg := if envMsg = "" then "API error (HTTP " ++ natToString statusCode ++ ")" else envMsg
  if statusCode = 401 ∨ statusCode = 403 then
    { statusCode := statusCode
      message := "authentication failed: " ++ msg ++
        "\n\nSet GEMINI_API_KEY or run: naba config set api_key <your-key>"
      exitCode := ExitAuth }
  else if statusCode = 429 then
    { statusCode := statusCode
      message := "rate limit exceeded: " ++ msg ++ "\n\nWait a moment and try again."
      exitCode := ExitRateLimit }
  else if 500 ≤ statusCode then
    { statusCode := statusCode
      message := "Gemini server error: " ++ msg ++
        "\n\nThis is a temporary issue. Try again shortly."
      exitCode := ExitAPI }
  else
    { statusCode := statusCode, message := msg, exitCode := ExitAPI }

/-- Abstraction of an HTTP response body by its JSON parse outcomes:
`generateResponse` is the result of unmarshalling it as a
`GenerateResponse` (with the decoder's message on failure), `errorMessage`
the `error.message` of the best-effort envelope parse (empty when the
envelope is malformed or the field missing). -/
structure RawBody where
  generateResponse : Except String GenerateResponse
  errorMessage : String

/-- The post-transport part of `doRequest`: classify the HTTP status and
body, check the prompt-feedback block reason, then extract images. -/
def doRequest (statusCode : Nat) (body : RawBody) : Except GoErr (List ImageResult) :=
  if statusCode ≠ 200 then
    .error (.apiError (parseAPIError statusCode body.errorMessage))
  else
    match body.generateResponse with
    | .error e => .error (.plain ("parse response: " ++ e))
    | .ok genResp =>
      if (match genResp.promptFeedback with
          | some pf => decide (pf.blockReason ≠ "")
          | none => false) then
        .error (.apiError
          { statusCode := 0
            message := "prompt blocked: " ++
              (match genResp.promptFeedback with
               | some pf => pf.blockReason
               | none => "")
            exitCode := ExitAPI })
      else extractImages genResp

/-- The inline-data parts contributed by a candidate list, in candidate
order then part order, skipping content-less candidates and text-only
parts. -/
def candidatesInlineDatas (cands : List Candidate) : List InlineData :=
  ((cands.filterMap fun c => c.content).map
    fun c => c.parts.filterMap fun p => p.inlineData).flatten

/-- The inline-data parts of a response in candidate order then part order,
skipping content-less candidates and text-only parts. -/
def responseInlineDatas (resp : GenerateResponse) : List InlineData :=
  candidatesInlineDatas resp.candidates

/-- The `ImageResult` an inline-data part yields when its payload decodes. -/
def imageOf (d : InlineData) : ImageResult :=
  { data := (decodeBase64 d.data).getD [], mimeType := d.mimeType }

/-! ### Output writer (from `internal/output/writer.go`)

The filesystem is modelled as the list of existing file paths. -/

/-- Does `p` exist on the modelled filesystem? (`os.Stat` / `os.IsNotExist`.) -/
def fileExists (fs : List String) (p : String) : Bool :=
  decide (p ∈ fs)

/-- The `i`-suffixed collision-avoidance candidate `base-i.ext` built by
`dedup` (and, with `i = index + 1`, by `WriteImage`'s multi-output branch). -/
def sufCandidate (path : String) (i : Nat) : String :=
  let ext := filepathExt path
  let base := trimSuffix path ext
  base ++ "-" ++ natToString i ++ ext

/-- `dedup` from `writer.go`: keep a non-existing path; otherwise try
`base-1.ext` … `base-999.ext` in order and return the first free one, giving
up after 999 attempts and returning the original path. -/
def dedup (fs : List String) (path : String) : String :=
  if fileExists fs path = false then path
  else
    match (List.range' 1 999).find? fun i => !fileExists fs (sufCandidate path i) with
    | some i => sufCandidate path i
    | none => path

/-- `mimeTypeToExt` from `writer.go`. -/
def mimeTypeToExt (mimeType : String) : String :=
  if mimeType = "image/png" then ".png"
  else if mimeType = "image/jpeg" then ".jpg"
  else if mimeType = "image/gif" then ".gif"
  else if mimeType = "image/webp" then ".webp"
  else ".png"

/-- `generateFilename` from `writer.go`; the timestamp string (Go format
`20060102-150405`) is an input since wall-clock time is outside the model. -/
def generateFilename (command mimeType : String) (index : Nat) (ts : String) : String :=
  let ext := mimeTypeToExt mimeType
  if 0 < index then "naba-" ++ command ++ "-" ++ ts ++ "-" ++ natToString (index + 1) ++ ext
  else "naba-" ++ command ++ "-" ++ ts ++ ext

/-- The outcome of one `WriteImage` call: the returned (absolute) path, the
path actually written, and the filesystem afterwards. -/
structure WriteOutcome where
  returned : String
  written : String
  fs : List String
deriving DecidableEq

/-- `WriteImage` from `writer.go` (successful-write path): resolve the output
name — synthesized when no path was requested, `-{index+1}`-suffixed for a
later output of a multi-output call — dedup it against the filesystem, write,
and return the absolute path.  Directory creation and write failures are
outside the model. -/
def writeImage (fs : List String) (mimeType outputPath command : String) (index : Nat)
    (ts cwd : String) : WriteOutcome :=
  let path0 :=
    if outputPath = "" then generateFilename command mimeType index ts
    else if 0 < index then
      let ext := filepathExt outputPath
      let base := trimSuffix outputPath ext
      base ++ "-" ++ natToString (index + 1) ++ ext
    else outputPath
  let path1 := dedup fs path0
  { returned := filepathAbs cwd path1, written := path1, fs := path1 :: fs }

/-- The name `WriteImage` resolves for index `i` of a multi-output call with
requested path `path` (before dedup): the path itself for the first output,
`base-(i+1).ext` afterwards. -/
def plannedName (path : String) (i : Nat) : String :=
  if i = 0 then path else sufCandidate path (i + 1)

/-- Run `WriteImage` for indices `i, i+1, …, i+k-1`, threading the
filesystem, and collect the outcomes in order. -/
def runWritesFrom (fs : List String) (mimeType path command ts cwd : String) (i : Nat) :
    Nat → List WriteOutcome
  | 0 => []
  | k + 1 =>
    let w := writeImage fs mimeType path command i ts cwd
    w :: runWritesFrom w.fs mimeType path command ts cwd (i + 1) k

/-! ### Helper lemmas about substring containment -/

theorem isPrefixList_self_append (p r : List Char) : isPrefixList p (p ++ r) = true := by
  induction p with
  | nil => rfl
  | cons a as ih => simp [isPrefixList, ih]

theorem containsSub_of_prefixed (pat s : List Char) (h : isPrefixList pat s = true) :
    containsSub pat s = true := by
  cases s with
  | nil => simpa [containsSub] using h
  | cons c rest => simp [containsSub, h]

theorem containsSub_of_append (pat l r : List Char) : containsSub pat (l ++ pat ++ r) = true := by
  induction l with
  | nil => exact containsSub_of_prefixed pat (pat ++ r) (isPrefixList_self_append pat r)
  | cons c l ih =>
    simp only [List.cons_append, containsSub, Bool.or_eq_true]
    exact Or.inr (by simpa [List.append_assoc] using ih)

theorem strContains_of_data (s pat : String) (l r : List Char)
    (h : s.data = l ++ pat.data ++ r) : strContains s pat = true := by
  unfold strContains
  rw [h]
  exact containsSub_of_append pat.data l r

theorem strContains_concat (a b c : String) : strContains (a ++ b ++ c) b = true := by
  unfold strContains
  rw [String.data_append, String.data_append]
  exact containsSub_of_append b.data a.data c.data

theorem strContains_self (s : String) : strContains s s = true := by
  unfold strContains
  have h := isPrefixList_self_append s.data []
  rw [List.append_nil] at h
  exact containsSub_of_prefixed s.data s.data h

end Naba

namespace Naba

/-- C1: on an HTTP 200 response whose body parses as a `GenerateResponse`
with a non-empty top-level prompt-feedback block reason, `doRequest` fails
with an `APIError` carrying the api exit code 5 and the message
`"prompt blocked: {reason}"`, and returns no images — whatever the
candidates contain. -/
theorem doRequest_promptBlocked (body : RawBody) (resp : GenerateResponse)
    (pf : PromptFeedback)
    (hparse : body.generateResponse = .ok resp)
    (hpf : resp.promptFeedback = some pf)
    (hbr : pf.blockReason ≠ "") :
    doRequest 200 body =
      .error (.apiError
        { statusCode := 0
          message := "prompt blocked: " ++ pf.blockReason
          exitCode := ExitAPI }) ∧
    ExitAPI = 5 := by
  refine ⟨?_, rfl⟩
  simp [doRequest, hparse, hpf, hbr]

/-- Witness for C1 at a concrete blocked response whose only candidate holds
a valid inline image. -/
theorem doRequest_promptBlocked_witness :
    doRequest 200
      { generateResponse := .ok
          { candidates :=
              [{ content := some
                   { role := "model"
                     parts := [{ text := "", inlineData := some { mimeType := "image/png", data := "QUJD" } }] }
                 finishReason := "STOP"
                 safetyRatings := [] }]
            promptFeedback := some { blockReason := "SAFETY", safetyRatings := [] } }
        errorMessage := "" } =
      .error (.apiError
        { statusCode := 0, message := "prompt blocked: " ++ "SAFETY", exitCode := ExitAPI }) ∧
    ExitAPI = 5 :=
  doRequest_promptBlocked _
    { candidates :=
        [{ content := some
             { role := "model"
               parts := [{ text := "", inlineData := some { mimeType := "image/png", data := "QUJD" } }] }
           finishReason := "STOP"
           safetyRatings := [] }]
      promptFeedback := some { blockReason := "SAFETY", safetyRatings := [] } }
    { blockReason := "SAFETY", safetyRatings := [] } rfl rfl (by decide)

/-- C8: on an HTTP 200 response whose body does not parse as a
`GenerateResponse`, `doRequest` fails with an error that the CLI layer
classifies with the general exit code 1 and whose message mentions
`"parse response"`, and returns no images. -/
theorem doRequest_parse_failure_general (body : RawBody) (e : String)
    (hparse : body.generateResponse = .error e) :
    doRequest 200 body = .error (.plain ("parse response: " ++ e)) ∧
    handleAPIError (.plain ("parse response: " ++ e)) =
      (ExitGeneral, "parse response: " ++ e) ∧
    ExitGeneral = 1 ∧
    strContains ("parse response: " ++ e) "parse response" = true := by
  refine ⟨by simp [doRequest, hparse], rfl, rfl, ?_⟩
  refine strContains_of_data _ _ [] (": ".data ++ e.data) ?_
  rw [String.data_append]
  simp only [List.nil_append]
  rw [← List.append_assoc]
  congr 1

/-- Witness for C8 at a concrete unparsable body. -/
theorem doRequest_parse_failure_general_witness :
    doRequest 200 { generateResponse := .error "invalid character", errorMessage := "" } =
      .error (.plain ("parse response: " ++ "invalid character")) ∧
    handleAPIError (.plain ("parse response: " ++ "invalid character")) =
      (ExitGeneral, "parse response: " ++ "invalid character") ∧
    ExitGeneral = 1 ∧
    strContains ("parse response: " ++ "invalid character") "parse response" = true :=
  doRequest_parse_failure_general _ "invalid character" rfl

/-- C3: `parseAPIError` classifies every non-200 status — auth exit code 3
for 401 and 403, rate-limit exit code 4 for 429, api exit code 5 for every
status ≥ 500 and for every other non-200 status — and when the error
envelope yields no message, the message built before any status-specific
rewriting is `"API error (HTTP {status})"`, which the final message
contains. -/
theorem parseAPIError_status_taxonomy (s : Nat) (m : String) (hs : s ≠ 200) :
    ((s = 401 ∨ s = 403) → (parseAPIError s m).exitCode = ExitAuth ∧ ExitAuth = 3) ∧
    (s = 429 → (parseAPIError s m).exitCode = ExitRateLimit ∧ ExitRateLimit = 4) ∧
    (500 ≤ s → (parseAPIError s m).exitCode = ExitAPI ∧ ExitAPI = 5) ∧
    (¬(s = 401 ∨ s = 403) → s ≠ 429 → (parseAPIError s m).exitCode = ExitAPI ∧ ExitAPI = 5) ∧
    strContains (parseAPIError s "").message
      ("API error (HTTP " ++ natToString s ++ ")") = true := by
  refine ⟨fun h => ⟨?_, rfl⟩, fun h => ⟨?_, rfl⟩, fun h => ⟨?_, rfl⟩,
    fun h1 h2 => ⟨?_, rfl⟩, ?_⟩
  · simp [parseAPIError, h]
  · subst h; simp [parseAPIError]
  · have h1 : ¬(s = 401 ∨ s = 403) := by omega
    have h2 : s ≠ 429 := by omega
    simp [parseAPIError, h1, h2, h]
  · by_cases h5 : 500 ≤ s
    · simp [parseAPIError, h1, h2, h5]
    · simp [parseAPIError, h1, h2, h5]
  · by_cases h1 : s = 401 ∨ s = 403
    · simp only [parseAPIError, if_pos h1, if_pos rfl]
      exact strContains_of_data _ _ "authentication failed: ".data
        "\n\nSet GEMINI_API_KEY or run: naba config set api_key <your-key>".data
        (by simp [String.data_append])
    · by_cases h2 : s = 429
      · simp only [parseAPIError, if_neg h1, if_pos h2, if_pos rfl]
        exact strContains_of_data _ _ "rate limit exceeded: ".data
          "\n\nWait a moment and try again.".data (by simp [String.data_append])
      · by_cases h5 : 500 ≤ s
        · simp only [parseAPIError, if_neg h1, if_neg h2, if_pos h5, if_pos rfl]
          exact strContains_of_data _ _ "Gemini server error: ".data
            "\n\nThis is a temporary issue. Try again shortly.".data
            (by simp [String.data_append])
        · simp only [parseAPIError, if_neg h1, if_neg h2, if_neg h5, if_pos rfl]
          exact strContains_self _

/-- Witness for C3 at status 404 with a malformed envelope. -/
theorem parseAPIError_status_taxonomy_witness :
    ((404 = 401 ∨ 404 = 403) → (parseAPIError 404 "").exitCode = ExitAuth ∧ ExitAuth = 3) ∧
    (404 = 429 → (parseAPIError 404 "").exitCode = ExitRateLimit ∧ ExitRateLimit = 4) ∧
    (500 ≤ 404 → (parseAPIError 404 "").exitCode = ExitAPI ∧ ExitAPI = 5) ∧
    (¬(404 = 401 ∨ 404 = 403) → 404 ≠ 429 → (parseAPIError 404 "").exitCode = ExitAPI ∧ ExitAPI = 5) ∧
    strContains (parseAPIError 404 "").message
      ("API error (HTTP " ++ natToString 404 ++ ")") = true :=
  parseAPIError_status_taxonomy 404 "" (by decide)

/-- C9: `Generate` builds a request holding exactly one `"user"` content with
exactly one text part; `GenerateWithImage` on a readable image file builds a
request holding exactly one `"user"` content with exactly two parts, the
text part first and then one inline-data part carrying the file's bytes
base64-encoded and the detected MIME type; both request both the TEXT and
the IMAGE response modalities. -/
theorem request_builder_shapes (prompt path : String) (bs : List Nat) :
    generateRequest prompt =
      { contents := [{ role := "user", parts := [{ text := prompt, inlineData := none }] }]
        generationConfig := { responseModalities := ["TEXT", "IMAGE"] } } ∧
    generateWithImageRequest prompt path (some bs) =
      .ok
        { contents :=
            [{ role := "user"
               parts :=
                 [{ text := prompt, inlineData := none },
                  { text := ""
                    inlineData := some
                      { mimeType := detectMIMEType path
                        data := ⟨encodeBase64Bytes bs⟩ } }] }]
          generationConfig := { responseModalities := ["TEXT", "IMAGE"] } } ∧
    "TEXT" ∈ (generateRequest prompt).generationConfig.responseModalities ∧
    "IMAGE" ∈ (generateRequest prompt).generationConfig.responseModalities := by
  refine ⟨rfl, rfl, ?_, ?_⟩
  · show "TEXT" ∈ ["TEXT", "IMAGE"]
    simp
  · show "IMAGE" ∈ ["TEXT", "IMAGE"]
    simp

/-- C10: the MIME type `GenerateWithImage` sends is derived from the path's
extension case-insensitively — `.png`, `.jpg`/`.jpeg`, `.gif`, `.webp` and
`.bmp` map to their image MIME types and anything else (or no extension)
defaults to `image/png` — and `readImageFile` pairs the encoded bytes with
exactly this detected type. -/
theorem detectMIMEType_extension_mapping (path : String) (bs : List Nat) :
    (stringToLower (filepathExt path) = ".png" → detectMIMEType path = "image/png") ∧
    ((stringToLower (filepathExt path) = ".jpg" ∨ stringToLower (filepathExt path) = ".jpeg") →
      detectMIMEType path = "image/jpeg") ∧
    (stringToLower (filepathExt path) = ".gif" → detectMIMEType path = "image/gif") ∧
    (stringToLower (filepathExt path) = ".webp" → detectMIMEType path = "image/webp") ∧
    (stringToLower (filepathExt path) = ".bmp" → detectMIMEType path = "image/bmp") ∧
    (stringToLower (filepathExt path) ∉
        [".png", ".jpg", ".jpeg", ".gif", ".webp", ".bmp"] →
      detectMIMEType path = "image/png") ∧
    readImageFile path (some bs) = .ok (⟨encodeBase64Bytes bs⟩, detectMIMEType path) := by
  refine ⟨fun h => by simp [detectMIMEType, h], fun h => ?_, fun h => ?_, fun h => ?_,
    fun h => ?_, fun h => ?_, rfl⟩
  · rcases h with h | h
    · have hne : stringToLower (filepathExt path) ≠ ".png" := by rw [h]; decide
      simp [detectMIMEType, hne, h]
    · have hne : stringToLower (filepathExt path) ≠ ".png" := by rw [h]; decide
      simp [detectMIMEType, hne, h]
  · have h1 : stringToLower (filepathExt path) ≠ ".png" := by rw [h]; decide
    have h2 : ¬(stringToLower (filepathExt path) = ".jpg" ∨
        stringToLower (filepathExt path) = ".jpeg") := by rw [h]; decide
    simp [detectMIMEType, h1, h2, h]
  · have h1 : stringToLower (filepathExt path) ≠ ".png" := by rw [h]; decide
    have h2 : ¬(stringToLower (filepathExt path) = ".jpg" ∨
        stringToLower (filepathExt path) = ".jpeg") := by rw [h]; decide
    have h3 : stringToLower (filepathExt path) ≠ ".gif" := by rw [h]; decide
    simp [detectMIMEType, h1, h2, h3, h]
  · have h1 : stringToLower (filepathExt path) ≠ ".png" := by rw [h]; decide
    have h2 : ¬(stringToLower (filepathExt path) = ".jpg" ∨
        stringToLower (filepathExt path) = ".jpeg") := by rw [h]; decide
    have h3 : stringToLower (filepathExt path) ≠ ".gif" := by rw [h]; decide
    have h4 : stringToLower (filepathExt path) ≠ ".webp" := by rw [h]; decide
    simp [detectMIMEType, h1, h2, h3, h4, h]
  · simp only [List.mem_cons, List.not_mem_nil, or_false, not_or] at h
    obtain ⟨h1, h2, h3, h4, h5, h6⟩ := h
    simp [detectMIMEType, h1, h2, h3, h4, h5, h6]

theorem candidatesInlineDatas_cons_none (cand : Candidate) (rest : List Candidate)
    (hc : cand.content = none) :
    candidatesInlineDatas (cand :: rest) = candidatesInlineDatas rest := by
  simp [candidatesInlineDatas, List.filterMap_cons, hc]

theorem candidatesInlineDatas_cons_some (cand : Candidate) (rest : List Candidate)
    (c : Content) (hc : cand.content = some c) :
    candidatesInlineDatas (cand :: rest) =
      (c.parts.filterMap fun p => p.inlineData) ++ candidatesInlineDatas rest := by
  simp [candidatesInlineDatas, List.filterMap_cons, hc]

theorem extractFromParts_ok (parts : List Part)
    (h : ∀ d ∈ parts.filterMap fun p => p.inlineData, decodeBase64 d.data ≠ none) :
    extractFromParts parts = .ok ((parts.filterMap fun p => p.inlineData).map imageOf) := by
  induction parts with
  | nil => rfl
  | cons p rest ih =>
    cases hinl : p.inlineData with
    | none =>
      have h' : ∀ d ∈ rest.filterMap fun p => p.inlineData, decodeBase64 d.data ≠ none := by
        intro d hd
        exact h d (by rw [List.filterMap_cons, hinl]; exact hd)
      simp [extractFromParts, hinl, List.filterMap_cons, ih h']
    | some d =>
      have hd : decodeBase64 d.data ≠ none :=
        h d (by rw [List.filterMap_cons, hinl]; exact List.mem_cons_self d _)
      cases hdec : decodeBase64 d.data with
      | none => exact absurd hdec hd
      | some bs =>
        have h' : ∀ e ∈ rest.filterMap fun p => p.inlineData, decodeBase64 e.data ≠ none := by
          intro e he
          exact h e (by rw [List.filterMap_cons, hinl]; exact List.mem_cons_of_mem d he)
        simp [extractFromParts, hinl, hdec, List.filterMap_cons, ih h', imageOf]

theorem extractLoop_ok (cands : List Candidate)
    (h : ∀ d ∈ candidatesInlineDatas cands, decodeBase64 d.data ≠ none) :
    extractLoop cands = .ok ((candidatesInlineDatas cands).map imageOf) := by
  induction cands with
  | nil => rfl
  | cons cand rest ih =>
    cases hc : cand.content with
    | none =>
      rw [candidatesInlineDatas_cons_none cand rest hc] at h
      simp [extractLoop, hc, ih h, candidatesInlineDatas_cons_none cand rest hc]
    | some c =>
      rw [candidatesInlineDatas_cons_some cand rest c hc] at h
      have hparts := extractFromParts_ok c.parts fun d hd =>
        h d (List.mem_append.mpr (Or.inl hd))
      have hrest := ih fun d hd => h d (List.mem_append.mpr (Or.inr hd))
      simp [extractLoop, hc, hparts, hrest, candidatesInlineDatas_cons_some cand rest c hc]

theorem extractFromParts_err (parts : List Part)
    (h : ∃ d ∈ parts.filterMap fun p => p.inlineData, decodeBase64 d.data = none) :
    extractFromParts parts = .error (.plain decodeFailMsg) := by
  induction parts with
  | nil => simp at h
  | cons p rest ih =>
    cases hinl : p.inlineData with
    | none =>
      rw [List.filterMap_cons, hinl] at h
      simp [extractFromParts, hinl, ih h]
    | some d =>
      cases hdec : decodeBase64 d.data with
      | none => simp [extractFromParts, hinl, hdec]
      | some bs =>
        rw [List.filterMap_cons, hinl] at h
        have h' : ∃ e ∈ rest.filterMap fun p => p.inlineData, decodeBase64 e.data = none := by
          rcases h with ⟨e, he, hen⟩
          rcases List.mem_cons.mp he with rfl | hmem
          · rw [hdec] at hen; cases hen
          · exact ⟨e, hmem, hen⟩
        simp [extractFromParts, hinl, hdec, ih h']

theorem extractLoop_err (cands : List Candidate)
    (h : ∃ d ∈ candidatesInlineDatas cands, decodeBase64 d.data = none) :
    extractLoop cands = .error (.plain decodeFailMsg) := by
  induction cands with
  | nil => simp [candidatesInlineDatas] at h
  | cons cand rest ih =>
    cases hc : cand.content with
    | none =>
      rw [candidatesInlineDatas_cons_none cand rest hc] at h
      simp [extractLoop, hc, ih h]
    | some c =>
      rw [candidatesInlineDatas_cons_some cand rest c hc] at h
      by_cases hfail : ∃ d ∈ c.parts.filterMap fun p => p.inlineData, decodeBase64 d.data = none
      · simp [extractLoop, hc, extractFromParts_err c.parts hfail]
      · push_neg at hfail
        have hok := extractFromParts_ok c.parts hfail
        have h' : ∃ d ∈ candidatesInlineDatas rest, decodeBase64 d.data = none := by
          rcases h with ⟨d, hd, hdn⟩
          rcases List.mem_append.mp hd with hl | hr
          · exact absurd hdn (hfail d hl)
          · exact ⟨d, hr, hdn⟩
        simp [extractLoop, hc, hok, ih h']

/-- C2: when at least one candidate contributes an inline-data part and every
inline payload base64-decodes, `extractImages` returns exactly one
`ImageResult` per inline-data part — its decoded bytes and that part's MIME
type — in candidate order then part order; content-less candidates are
skipped without error and text-only parts contribute nothing. -/
theorem extractImages_collects_all_inline_parts (resp : GenerateResponse)
    (hne : responseInlineDatas resp ≠ [])
    (h : ∀ d ∈ responseInlineDatas resp, decodeBase64 d.data ≠ none) :
    extractImages resp = .ok ((responseInlineDatas resp).map imageOf) := by
  have h' : ∀ d ∈ candidatesInlineDatas resp.candidates, decodeBase64 d.data ≠ none := h
  have hne' : candidatesInlineDatas resp.candidates ≠ [] := hne
  unfold extractImages
  rw [extractLoop_ok resp.candidates h']
  have hlen : (List.map imageOf (candidatesInlineDatas resp.candidates)).length ≠ 0 := by
    intro hx
    exact hne' (by simpa [List.length_eq_zero] using hx)
  simp [hlen, responseInlineDatas]
  exact hne'

/-- Witness for C2: one candidate holding a text part and two inline parts,
plus a content-less candidate. -/
theorem extractImages_collects_all_inline_parts_witness :
    extractImages
      { candidates :=
          [{ content := some
               { role := "model"
                 parts :=
                   [{ text := "here", inlineData := none },
                    { text := "", inlineData := some { mimeType := "image/png", data := "QUJD" } },
                    { text := "", inlineData := some { mimeType := "image/jpeg", data := "QQ==" } }] }
             finishReason := "STOP"
             safetyRatings := [] },
           { content := none, finishReason := "", safetyRatings := [] }]
        promptFeedback := none } =
      .ok ((responseInlineDatas
        { candidates :=
            [{ content := some
                 { role := "model"
                   parts :=
                     [{ text := "here", inlineData := none },
                      { text := "", inlineData := some { mimeType := "image/png", data := "QUJD" } },
                      { text := "", inlineData := some { mimeType := "image/jpeg", data := "QQ==" } }] }
               finishReason := "STOP"
               safetyRatings := [] },
             { content := none, finishReason := "", safetyRatings := [] }]
          promptFeedback := none }).map imageOf) :=
  extractImages_collects_all_inline_parts _ (by decide) (by decide)

/-- C4: when no candidate contributes an inline-data part — all candidates
content-less or text-only, or no candidates at all — `extractImages` fails
with an `APIError` carrying the api exit code 5 and the message
`"no images in response"`, returning no images. -/
theorem extractImages_no_images_failure (resp : GenerateResponse)
    (h : responseInlineDatas resp = []) :
    extractImages resp =
      .error (.apiError
        { statusCode := 0, message := "no images in response", exitCode := ExitAPI }) ∧
    ExitAPI = 5 ∧
    strContains "no images in response" "no images in response" = true := by
  refine ⟨?_, rfl, strContains_self _⟩
  have h' : candidatesInlineDatas resp.candidates = [] := h
  have hok := extractLoop_ok resp.candidates (by rw [h']; intro d hd; cases hd)
  unfold extractImages
  rw [hok, h']
  rfl

/-- Witness for C4: one text-only candidate and one content-less candidate. -/
theorem extractImages_no_images_failure_witness :
    extractImages
      { candidates :=
          [{ content := some
               { role := "model"
                 parts := [{ text := "cannot help with that", inlineData := none }] }
             finishReason := "STOP"
             safetyRatings := [] },
           { content := none, finishReason := "", safetyRatings := [] }]
        promptFeedback := none } =
      .error (.apiError
        { statusCode := 0, message := "no images in response", exitCode := ExitAPI }) ∧
    ExitAPI = 5 ∧
    strContains "no images in response" "no images in response" = true :=
  extractImages_no_images_failure _ (by decide)

/-- C5: when some inline-data part's payload is not valid base64, the whole
extraction aborts with an error whose message contains
`"decode image data"` — classified with the general exit code 1, within the
claim's general-or-api range — and no partial image list is returned. -/
theorem extractImages_decode_failure_aborts (resp : GenerateResponse)
    (h : ∃ d ∈ responseInlineDatas resp, decodeBase64 d.data = none) :
    extractImages resp = .error (.plain decodeFailMsg) ∧
    strContains decodeFailMsg "decode image data" = true ∧
    handleAPIError (.plain decodeFailMsg) = (ExitGeneral, decodeFailMsg) ∧
    ExitGeneral = 1 := by
  refine ⟨?_, by decide, rfl, rfl⟩
  have h' : ∃ d ∈ candidatesInlineDatas resp.candidates, decodeBase64 d.data = none := h
  unfold extractImages
  rw [extractLoop_err resp.candidates h']

/-- Witness for C5: a response whose second inline part carries malformed
base64. -/
theorem extractImages_decode_failure_aborts_witness :
    extractImages
      { candidates :=
          [{ content := some
               { role := "model"
                 parts :=
                   [{ text := "", inlineData := some { mimeType := "image/png", data := "QUJD" } },
                    { text := "", inlineData := some { mimeType := "image/png", data := "!!!" } }] }
             finishReason := "STOP"
             safetyRatings := [] }]
        promptFeedback := none } =
      .error (.plain decodeFailMsg) ∧
    strContains decodeFailMsg "decode image data" = true ∧
    handleAPIError (.plain decodeFailMsg) = (ExitGeneral, decodeFailMsg) ∧
    ExitGeneral = 1 :=
  extractImages_decode_failure_aborts _ (by decide)

/-! ### Injectivity of the decimal rendering -/

theorem natToCharsAux_eq_digits :
    ∀ (fuel n : Nat) (acc : List Char), 0 < n → n < fuel →
      natToCharsAux fuel n acc = ((Nat.digits 10 n).map Nat.digitChar).reverse ++ acc := by
  intro fuel
  induction fuel with
  | zero => intro n acc h1 h2; omega
  | succ f ih =>
    intro n acc h1 h2
    by_cases h10 : n / 10 = 0
    · have hn10 : n < 10 := by omega
      rw [Nat.digits_def' (by norm_num : (1 : ℕ) < 10) h1, h10]
      simp [natToCharsAux, h10, Nat.mod_eq_of_lt hn10]
    · have hrec := ih (n / 10) (Nat.digitChar (n % 10) :: acc)
        (Nat.pos_of_ne_zero h10)
        (by
          have := Nat.div_lt_self h1 (by norm_num : 1 < 10)
          omega)
      rw [Nat.digits_def' (by norm_num : (1 : ℕ) < 10) h1]
      simp only [natToCharsAux, h10, if_false, List.map_cons, List.reverse_cons]
      rw [hrec, List.append_assoc]
      rfl

theorem natToChars_eq_digits (n : Nat) :
    natToChars n = if n = 0 then ['0'] else ((Nat.digits 10 n).map Nat.digitChar).reverse := by
  by_cases h : n = 0
  · subst h; rfl
  · rw [if_neg h]
    have := natToCharsAux_eq_digits (n + 1) n [] (Nat.pos_of_ne_zero h) (Nat.lt_succ_self n)
    simpa [natToChars] using this

theorem digitChar_inj_lt :
    ∀ a, a < 10 → ∀ b, b < 10 → Nat.digitChar a = Nat.digitChar b → a = b := by decide

theorem map_digitChar_inj (l1 : List Nat) :
    ∀ l2, (∀ d ∈ l1, d < 10) → (∀ d ∈ l2, d < 10) →
      l1.map Nat.digitChar = l2.map Nat.digitChar → l1 = l2 := by
  induction l1 with
  | nil =>
    intro l2 _ _ h
    cases l2 with
    | nil => rfl
    | cons b t => simp at h
  | cons a l1 ih =>
    intro l2 h1 h2 h
    cases l2 with
    | nil => simp at h
    | cons b l2 =>
      simp only [List.map_cons, List.cons.injEq] at h
      have hab := digitChar_inj_lt a (h1 a (List.mem_cons_self a l1)) b
        (h2 b (List.mem_cons_self b l2)) h.1
      subst hab
      rw [ih l2 (fun d hd => h1 d (List.mem_cons_of_mem a hd))
        (fun d hd => h2 d (List.mem_cons_of_mem a hd)) h.2]

theorem digits_map_ne_zero_chars (n : Nat) (hn : n ≠ 0) :
    ((Nat.digits 10 n).map Nat.digitChar).reverse ≠ ['0'] := by
  intro h
  have hx : (Nat.digits 10 n).map Nat.digitChar = ['0'] := by
    have := congrArg List.reverse h
    simpa using this
  have hd : Nat.digits 10 n = [0] := by
    cases hdig : Nat.digits 10 n with
    | nil => rw [hdig] at hx; simp at hx
    | cons d t =>
      rw [hdig] at hx
      simp only [List.map_cons, List.cons.injEq] at hx
      have ht : t = [] := by
        cases t with
        | nil => rfl
        | cons u v => simp at hx
      subst ht
      have hdlt : d < 10 := Nat.digits_lt_base (by norm_num) (by rw [hdig]; exact List.mem_cons_self d [])
      have : d = 0 := digitChar_inj_lt d hdlt 0 (by norm_num) (by simpa using hx.1)
      rw [this]
  have := Nat.ofDigits_digits 10 n
  rw [hd] at this
  simp [Nat.ofDigits] at this
  exact hn this.symm

theorem natToChars_inj (m n : Nat) (h : natToChars m = natToChars n) : m = n := by
  rw [natToChars_eq_digits, natToChars_eq_digits] at h
  by_cases hm : m = 0 <;> by_cases hn : n = 0
  · omega
  · rw [if_pos hm, if_neg hn] at h
    exact absurd h.symm (digits_map_ne_zero_chars n hn)
  · rw [if_neg hm, if_pos hn] at h
    exact absurd h (digits_map_ne_zero_chars m hm)
  · rw [if_neg hm, if_neg hn] at h
    have hmap : (Nat.digits 10 m).map Nat.digitChar = (Nat.digits 10 n).map Nat.digitChar := by
      have := congrArg List.reverse h
      simpa using this
    have hdig := map_digitChar_inj (Nat.digits 10 m) (Nat.digits 10 n)
      (fun d hd => Nat.digits_lt_base (by norm_num) hd)
      (fun d hd => Nat.digits_lt_base (by norm_num) hd) hmap
    have h1 := Nat.ofDigits_digits 10 m
    have h2 := Nat.ofDigits_digits 10 n
    rw [hdig] at h1
    rw [h2] at h1
    exact h1.symm

theorem natToString_inj (m n : Nat) (h : natToString m = natToString n) : m = n :=
  natToChars_inj m n (congrArg String.data h)

/-! ### Extension and suffix-candidate lemmas -/

theorem goExtAux_spec :
    ∀ (l acc : List Char),
      goExtAux l acc = [] ∨ ∃ pre, l.reverse ++ acc = pre ++ goExtAux l acc := by
  intro l
  induction l with
  | nil => intro acc; exact Or.inl rfl
  | cons c rest ih =>
    intro acc
    by_cases hc : c = '/'
    · left; simp [goExtAux, hc]
    · by_cases hd : c = '.'
      · right
        refine ⟨rest.reverse, ?_⟩
        subst hd
        simp [goExtAux, hc]
      · rcases ih (c :: acc) with h | ⟨pre, hpre⟩
        · left; simp [goExtAux, hc, hd, h]
        · right
          refine ⟨pre, ?_⟩
          simp only [goExtAux, hc, hd, if_false, List.reverse_cons]
          rw [List.append_assoc]
          simpa using hpre

theorem ext_data_suffix (path : String) :
    (filepathExt path).data = [] ∨ ∃ pre, path.data = pre ++ (filepathExt path).data := by
  rcases goExtAux_spec path.data.reverse [] with h | ⟨pre, hpre⟩
  · left; simpa [filepathExt] using h
  · right
    refine ⟨pre, ?_⟩
    have : path.data.reverse.reverse ++ [] = pre ++ goExtAux path.data.reverse [] := hpre
    simpa [filepathExt] using this

theorem trimSuffix_append_ext (path : String) :
    (trimSuffix path (filepathExt path)).data ++ (filepathExt path).data = path.data := by
  rcases ext_data_suffix path with h | ⟨pre, hpre⟩
  · rw [h, List.append_nil]
    unfold trimSuffix
    rw [if_pos (by rw [h]; exact List.isPrefixOf_iff_prefix.mpr List.nil_prefix)]
    simp [h]
  · unfold trimSuffix
    rw [if_pos (by
      rw [hpre, List.reverse_append]
      exact List.isPrefixOf_iff_prefix.mpr (List.prefix_append _ _))]
    rw [hpre]
    simp only [List.length_append]
    rw [List.take_left' (by omega)]

theorem sufCandidate_length (path : String) (i : Nat) :
    (sufCandidate path i).length =
      (trimSuffix path (filepathExt path)).length + 1 + (natToString i).length +
        (filepathExt path).length := by
  unfold sufCandidate
  rw [String.length_append, String.length_append, String.length_append]
  have hone : ("-" : String).length = 1 := rfl
  omega

theorem path_length_split (path : String) :
    (trimSuffix path (filepathExt path)).length + (filepathExt path).length = path.length := by
  have h := congrArg List.length (trimSuffix_append_ext path)
  rw [List.length_append] at h
  exact h

theorem sufCandidate_ne_path (path : String) (i : Nat) : sufCandidate path i ≠ path := by
  intro h
  have hlen := congrArg String.length h
  rw [sufCandidate_length] at hlen
  have := path_length_split path
  omega

theorem sufCandidate_inj (path : String) (i j : Nat)
    (h : sufCandidate path i = sufCandidate path j) : i = j := by
  unfold sufCandidate at h
  have hd := congrArg String.data h
  rw [String.data_append, String.data_append, String.data_append, String.data_append,
    String.data_append, String.data_append] at hd
  have h2 := List.append_cancel_right hd
  have h3 := List.append_cancel_left h2
  exact natToChars_inj i j h3

theorem plannedName_inj (path : String) (a b : Nat)
    (h : plannedName path a = plannedName path b) : a = b := by
  unfold plannedName at h
  by_cases ha : a = 0 <;> by_cases hb : b = 0
  · omega
  · rw [if_pos ha, if_neg hb] at h
    exact absurd h.symm (sufCandidate_ne_path path (b + 1))
  · rw [if_neg ha, if_pos hb] at h
    exact absurd h (sufCandidate_ne_path path (a + 1))
  · rw [if_neg ha, if_neg hb] at h
    have := sufCandidate_inj path (a + 1) (b + 1) h
    omega

/-! ### `dedup` scan lemmas -/

theorem find?_range'_eq_some (p : Nat → Bool) :
    ∀ (n s i : Nat), s ≤ i → i < s + n → p i = true →
      (∀ j, s ≤ j → j < i → p j = false) →
      (List.range' s n).find? p = some i := by
  intro n
  induction n with
  | zero => intro s i h1 h2 _ _; omega
  | succ n ih =>
    intro s i h1 h2 hp hmin
    rw [List.range'_succ]
    by_cases hsi : s = i
    · subst hsi
      rw [List.find?_cons_of_pos _ hp]
    · have hps : p s = false := hmin s (le_refl s) (by omega)
      rw [List.find?_cons_of_neg _ (by simp [hps])]
      exact ih (s + 1) i (by omega) (by omega) hp (fun j hj1 hj2 => hmin j (by omega) hj2)

theorem dedup_scan (fs : List String) (path : String) (j : Nat)
    (hex : fileExists fs path = true) (hj1 : 1 ≤ j) (hj2 : j < 1000)
    (hjfree : fileExists fs (sufCandidate path j) = false)
    (hjmin : ∀ k, 1 ≤ k → k < j → fileExists fs (sufCandidate path k) = true) :
    dedup fs path = sufCandidate path j := by
  unfold dedup
  rw [if_neg (by simp [hex])]
  rw [find?_range'_eq_some _ 999 1 j hj1 (by omega) (by simp [hjfree])
    (fun k hk1 hk2 => by simp [hjmin k hk1 hk2])]

theorem dedup_exhausted (fs : List String) (path : String)
    (hex : fileExists fs path = true)
    (hbusy : ∀ j, 1 ≤ j → j < 1000 → fileExists fs (sufCandidate path j) = true) :
    dedup fs path = path := by
  unfold dedup
  rw [if_neg (by simp [hex])]
  rw [List.find?_eq_none.mpr ?_]
  intro x hx
  rw [List.mem_range'] at hx
  obtain ⟨k, hk, rfl⟩ := hx
  have hb := hbusy (1 + k) (by omega) (by omega)
  simp [hb]

theorem dedup_fresh (fs : List String) (path : String)
    (h : fileExists fs path = false) : dedup fs path = path := by
  unfold dedup
  rw [if_pos h]

/-- C6: when the resolved path exists, `dedup` appends the smallest positive
suffix `-i` before the extension (scanning `i = 1, 2, …`) that yields a
non-existing path, and after 999 attempts gives up and returns the original
candidate; consequently writing twice with the same requested path yields
the requested name first and the lowest free numeric suffix second, two
distinct names. -/
theorem dedup_smallest_suffix (fs0 : List String) (path mimeType command ts cwd : String)
    (i : Nat)
    (hne : path ≠ "")
    (hfresh : fileExists fs0 path = false)
    (h1 : 1 ≤ i) (h2 : i < 1000)
    (hfree : fileExists (path :: fs0) (sufCandidate path i) = false)
    (hmin : ∀ j, 1 ≤ j → j < i → fileExists (path :: fs0) (sufCandidate path j) = true) :
    (∀ fs j, fileExists fs path = true → 1 ≤ j → j < 1000 →
        fileExists fs (sufCandidate path j) = false →
        (∀ k, 1 ≤ k → k < j → fileExists fs (sufCandidate path k) = true) →
        dedup fs path = sufCandidate path j) ∧
    (∀ fs, fileExists fs path = true →
        (∀ j, 1 ≤ j → j < 1000 → fileExists fs (sufCandidate path j) = true) →
        dedup fs path = path) ∧
    (writeImage fs0 mimeType path command 0 ts cwd).written = path ∧
    (writeImage (writeImage fs0 mimeType path command 0 ts cwd).fs
        mimeType path command 0 ts cwd).written = sufCandidate path i ∧
    sufCandidate path i ≠ path := by
  have hw1 : (writeImage fs0 mimeType path command 0 ts cwd).written = path := by
    simp only [writeImage, if_neg hne]
    norm_num
    exact dedup_fresh fs0 path hfresh
  have hfs1 : (writeImage fs0 mimeType path command 0 ts cwd).fs = path :: fs0 := by
    simp only [writeImage, if_neg hne]
    norm_num
    rw [dedup_fresh fs0 path hfresh]
  refine ⟨fun fs j a b c d e => dedup_scan fs path j a b c d e,
    fun fs a b => dedup_exhausted fs path a b, hw1, ?_, sufCandidate_ne_path path i⟩
  rw [hfs1]
  simp only [writeImage, if_neg hne]
  norm_num
  exact dedup_scan (path :: fs0) path i (by simp [fileExists]) h1 h2 hfree hmin

/-- Witness for C6: writing `a.png` twice against an empty directory. -/
theorem dedup_smallest_suffix_witness :
    (∀ fs j, fileExists fs "a.png" = true → 1 ≤ j → j < 1000 →
        fileExists fs (sufCandidate "a.png" j) = false →
        (∀ k, 1 ≤ k → k < j → fileExists fs (sufCandidate "a.png" k) = true) →
        dedup fs "a.png" = sufCandidate "a.png" j) ∧
    (∀ fs, fileExists fs "a.png" = true →
        (∀ j, 1 ≤ j → j < 1000 → fileExists fs (sufCandidate "a.png" j) = true) →
        dedup fs "a.png" = "a.png") ∧
    (writeImage [] "image/png" "a.png" "generate" 0 "ts" "/work").written = "a.png" ∧
    (writeImage (writeImage [] "image/png" "a.png" "generate" 0 "ts" "/work").fs
        "image/png" "a.png" "generate" 0 "ts" "/work").written = sufCandidate "a.png" 1 ∧
    sufCandidate "a.png" 1 ≠ "a.png" :=
  dedup_smallest_suffix [] "a.png" "image/png" "generate" "ts" "/work" 1
    (by decide) (by decide) (by decide) (by decide) (by decide)
    (by intro j hj1 hj2; exact absurd hj2 (by omega))

/-! ### The multi-output naming sequence -/

theorem runWrites_aux (fs0 : List String) (mimeType path command ts cwd : String)
    (hne : path ≠ "") :
    ∀ (k i : Nat),
      (∀ j, j < i + k → fileExists fs0 (plannedName path j) = false) →
      ((runWritesFrom (((List.range i).map (plannedName path)).reverse ++ fs0)
          mimeType path command ts cwd i k).map (fun w => w.written) =
        (List.range' i k).map (plannedName path)) ∧
      ((runWritesFrom (((List.range i).map (plannedName path)).reverse ++ fs0)
          mimeType path command ts cwd i k).map (fun w => w.returned) =
        (List.range' i k).map (fun j => filepathAbs cwd (plannedName path j))) := by
  intro k
  induction k with
  | zero => intro i _; exact ⟨rfl, rfl⟩
  | succ k ih =>
    intro i hfresh
    have hplan :
        (if path = "" then generateFilename command mimeType i ts
         else if 0 < i then
           trimSuffix path (filepathExt path) ++ "-" ++ natToString (i + 1) ++ filepathExt path
         else path) = plannedName path i := by
      rw [if_neg hne]
      by_cases hi : i = 0
      · subst hi; simp [plannedName]
      · rw [if_pos (Nat.pos_of_ne_zero hi)]
        simp [plannedName, hi, sufCandidate]
    have hnotin :
        fileExists (((List.range i).map (plannedName path)).reverse ++ fs0)
          (plannedName path i) = false := by
      simp only [fileExists, decide_eq_false_iff_not]
      intro hmem
      rcases List.mem_append.mp hmem with hl | hr
      · rw [List.mem_reverse] at hl
        rcases List.mem_map.mp hl with ⟨j, hj, hje⟩
        have hji : j = i := plannedName_inj path j i hje
        rw [List.mem_range] at hj
        omega
      · have hf := hfresh i (by omega)
        rw [fileExists, decide_eq_false_iff_not] at hf
        exact hf hr
    have hfs :
        plannedName path i :: (((List.range i).map (plannedName path)).reverse ++ fs0) =
          ((List.range (i + 1)).map (plannedName path)).reverse ++ fs0 := by
      rw [List.range_succ, List.map_append, List.reverse_append]
      simp
    have hww : (writeImage (((List.range i).map (plannedName path)).reverse ++ fs0)
        mimeType path command i ts cwd).written = plannedName path i := by
      simp only [writeImage]
      rw [hplan, dedup_fresh _ _ hnotin]
    have hwr : (writeImage (((List.range i).map (plannedName path)).reverse ++ fs0)
        mimeType path command i ts cwd).returned = filepathAbs cwd (plannedName path i) := by
      simp only [writeImage]
      rw [hplan, dedup_fresh _ _ hnotin]
    have hwf : (writeImage (((List.range i).map (plannedName path)).reverse ++ fs0)
        mimeType path command i ts cwd).fs =
        ((List.range (i + 1)).map (plannedName path)).reverse ++ fs0 := by
      simp only [writeImage]
      rw [hplan, dedup_fresh _ _ hnotin]
      exact hfs
    obtain ⟨ihw, ihr⟩ := ih (i + 1) (fun j hj => hfresh j (by omega))
    constructor
    · rw [List.range'_succ, List.map_cons]
      simp only [runWritesFrom, List.map_cons]
      rw [hww, hwf, ihw]
    · rw [List.range'_succ, List.map_cons]
      simp only [runWritesFrom, List.map_cons]
      rw [hwr, hwf, ihr]

/-- C7: with no pre-existing colliding files, `N` `WriteImage` calls against
requested path `foo.png` with indices `0 … N-1` write `foo.png` for index 0
and, for every later index `i`, insert `-{i+1}` before the extension,
producing `foo-2.png` … `foo-N.png`; each call returns the absolute form of
the path it wrote. -/
theorem writeImage_sequence_naming (fs0 : List String)
    (mimeType path command ts cwd : String) (n : Nat)
    (hne : path ≠ "") (hn : 1 ≤ n)
    (hfresh : ∀ i, i < n → fileExists fs0 (plannedName path i) = false) :
    (runWritesFrom fs0 mimeType path command ts cwd 0 n).map (fun w => w.written) =
      (List.range n).map (plannedName path) ∧
    (runWritesFrom fs0 mimeType path command ts cwd 0 n).map (fun w => w.returned) =
      (List.range n).map (fun i => filepathAbs cwd (plannedName path i)) ∧
    plannedName path 0 = path ∧
    ∀ i, 0 < i → plannedName path i = sufCandidate path (i + 1) := by
  have haux := runWrites_aux fs0 mimeType path command ts cwd hne n 0
    (fun j hj => hfresh j (by omega))
  rw [show ((List.range 0).map (plannedName path)).reverse ++ fs0 = fs0 by simp] at haux
  simp only [List.range_eq_range']
  refine ⟨haux.1, haux.2, rfl, fun i hi => ?_⟩
  unfold plannedName
  rw [if_neg (by omega : ¬ i = 0)]

/-- Witness for C7: three writes against `foo.png` in an empty directory. -/
theorem writeImage_sequence_naming_witness :
    (runWritesFrom [] "image/png" "foo.png" "generate" "ts" "/work" 0 3).map
        (fun w => w.written) =
      (List.range 3).map (plannedName "foo.png") ∧
    (runWritesFrom [] "image/png" "foo.png" "generate" "ts" "/work" 0 3).map
        (fun w => w.returned) =
      (List.range 3).map (fun i => filepathAbs "/work" (plannedName "foo.png" i)) ∧
    plannedName "foo.png" 0 = "foo.png" ∧
    ∀ i, 0 < i → plannedName "foo.png" i = sufCandidate "foo.png" (i + 1) :=
  writeImage_sequence_naming [] "image/png" "foo.png" "generate" "ts" "/work" 3
    (by decide) (by decide) (by decide)

end Naba
